import Mathlib

/-!
Verification of the XMPPReceiver bridge (src/XMPPReceiver/xmpp_receiver.py).

The development shallowly embeds the receiver script: pure data flow is
translated to Lean functions, the file system and the HTTP/XMPP transports
become explicit oracle parameters, and every observable side effect (log
lines, outbound HTTP requests, outbound presence stanzas) is recorded in an
effect trace.  Exceptions are modelled with `Option`/`Except`-style results.
-/

namespace XMPPReceiverSpec

/-- Python-level exceptions that the script can raise or catch.
`ioError` models `IOError` (port file absent or unreadable), `valueError`
models `ValueError` (port file contents not a base-10 integer). -/
inductive PyError
  | ioError
  | valueError
  deriving DecidableEq, Repr

/-- An outbound HTTP POST as issued by `connection.request` in
`xmpp_message`. -/
structure HttpPost where
  host : String
  port : Nat
  path : String
  body : String
  headers : List (String × String)
  deriving DecidableEq, Repr

/-- Observable side effects of the receiver, in emission order. -/
inductive Effect
  | log (msg : String)
  | logHttpException
  | httpRequest (p : HttpPost)
  | sendPresence (dest : String) (typ : String)
  deriving DecidableEq, Repr

/-- The file system as seen by the script: a map from paths to contents,
`none` when the file is absent or unreadable (`open` raises `IOError`). -/
abbrev FS : Type := String → Option String

/-- Stages of the HTTP delivery sequence inside the `try` block of
`xmpp_message` at which the transport can raise.  `httplib.HTTPConnection`
construction never raises; the connection is opened lazily by `request`. -/
inductive HttpStep
  | request
  | getresponse
  | close
  deriving DecidableEq, Repr

/-- Oracle describing the behaviour of one HTTP delivery attempt: the first
step that raises (if any) and the status line returned by `getresponse`. -/
structure HttpWorld where
  failAt : Option HttpStep
  status : Nat
  deriving DecidableEq, Repr

/-- An incoming XMPP message event, as consumed by `xmpp_message`:
`fromStripped` is `event.getFrom().getStripped()`, `body` is
`event.getBody()` (which may be `None`), `kind` is the stanza type that
`event.getType()` would return. -/
structure MessageEvent where
  fromStripped : String
  body : Option String
  kind : String
  deriving DecidableEq, Repr

/-- An incoming XMPP presence event, as consumed by `xmpp_presence`:
`fromJid` is `event.getFrom()` (the full JID the reply is addressed to),
`fromStripped` its stripped form, `payload` is `event.getPayload()`,
`kind` is `event.getType()`. -/
structure PresenceEvent where
  fromJid : String
  fromStripped : String
  payload : String
  kind : String
  deriving DecidableEq, Repr

/-- The receiver object: the four constructor arguments plus the derived
`my_jid`, exactly the attributes `__init__` assigns. -/
structure XMPPReceiver where
  appid : String
  login_ip : String
  app_password : String
  xmpp_location : String
  my_jid : String
  deriving DecidableEq, Repr

/-- Embeds `XMPPReceiver.__init__`: stores the four arguments and derives
`my_jid = appid + "@" + login_ip`.  (The log-file redirection is an
environment effect outside the data model.) -/
def XMPPReceiver.init (appid login_ip xmpp_location app_password : String) :
    XMPPReceiver :=
  { appid := appid
    login_ip := login_ip
    app_password := app_password
    xmpp_location := xmpp_location
    my_jid := appid ++ "@" ++ login_ip }

/-! ### URL encoding (`urllib.urlencode` / `urllib.quote_plus`)

Python 2 strings are byte strings; a Lean `Char` with code point below 256
models one byte.  `urllib.quote_plus` keeps ASCII letters, digits and
`'_'`, `'.'`, `'-'` as-is, turns a space into `'+'`, and renders every
other byte as `%XX` with upper-case hex digits. -/

/-- The characters `urllib` never escapes (its `always_safe` set). -/
def isSafeChar (c : Char) : Bool :=
  c.isAlpha || c.isDigit || c = '_' || c = '.' || c = '-'

/-- Upper-case hexadecimal digit for a value below 16. -/
def hexDigit (n : Nat) : Char :=
  if n < 10 then Char.ofNat (48 + n) else Char.ofNat (55 + n)

/-- Embeds `urllib.quote_plus` on a single byte. -/
def quoteChar (c : Char) : List Char :=
  if isSafeChar c then [c]
  else if c = ' ' then ['+']
  else ['%', hexDigit (c.toNat / 16), hexDigit (c.toNat % 16)]

/-- Embeds `urllib.quote_plus` on a byte string. -/
def quotePlus (s : String) : String :=
  String.mk ((s.data.map quoteChar).flatten)

/-- The value Python's `str()` produces for the `body` entry of the params
dict: `None` renders as the string `"None"`. -/
def pyStr : Option String → String
  | none => "None"
  | some s => s

/-- One `quote_plus(k)=quote_plus(v)` component of `urllib.urlencode`. -/
def urlencodePair (p : String × String) : String :=
  quotePlus p.1 ++ "=" ++ quotePlus p.2

/-- Embeds `urllib.urlencode` over the params in insertion order: the encoded
pairs joined by `&`. -/
def urlencode : List (String × String) → String
  | [] => ""
  | [p] => urlencodePair p
  | p :: q :: rest => urlencodePair p ++ "&" ++ urlencode (q :: rest)

/-! ### Decoding form data (spec side of the round-trip property) -/

/-- Value of a hexadecimal digit character, if it is one. -/
def hexVal (c : Char) : Option Nat :=
  if 48 ≤ c.toNat ∧ c.toNat ≤ 57 then some (c.toNat - 48)
  else if 65 ≤ c.toNat ∧ c.toNat ≤ 70 then some (c.toNat - 55)
  else none

/-- Inverse of `quoteChar` sequences: decodes `+` to a space and `%XX` to
the byte `XX`, failing on malformed escapes. -/
def unquoteChars : List Char → Option (List Char)
  | [] => some []
  | c :: rest =>
    if c = '+' then
      Option.map (fun l => ' ' :: l) (unquoteChars rest)
    else if c = '%' then
      match rest with
      | h :: lo :: tail =>
        match hexVal h, hexVal lo with
        | some hv, some lv =>
          Option.map (fun l => Char.ofNat (16 * hv + lv) :: l)
            (unquoteChars tail)
        | _, _ => none
      | _ => none
    else
      Option.map (fun l => c :: l) (unquoteChars rest)

/-- Splits a character list at every `&`. -/
def splitAmp : List Char → List (List Char)
  | [] => [[]]
  | c :: rest =>
    if c = '&' then [] :: splitAmp rest
    else
      match splitAmp rest with
      | [] => [[c]]
      | p :: ps => (c :: p) :: ps

/-- Splits a character list at the first `=`, failing when there is none. -/
def splitEq1 : List Char → Option (List Char × List Char)
  | [] => none
  | c :: rest =>
    if c = '=' then some ([], rest)
    else Option.map (fun p => (c :: p.1, p.2)) (splitEq1 rest)

/-- Decodes one `k=v` pair of a form body. -/
def decodePair (l : List Char) : Option (String × String) :=
  match splitEq1 l with
  | none => none
  | some (k, v) =>
    match unquoteChars k, unquoteChars v with
    | some kd, some vd => some (String.mk kd, String.mk vd)
    | _, _ => none

/-- Decodes every `k=v` component, failing if any one fails. -/
def decodePairs : List (List Char) → Option (List (String × String))
  | [] => some []
  | l :: rest =>
    match decodePair l, decodePairs rest with
    | some p, some ps => some (p :: ps)
    | _, _ => none

/-- Decodes an `application/x-www-form-urlencoded` body back into its
key/value pairs. -/
def decodeForm (s : String) : Option (List (String × String)) :=
  decodePairs (splitAmp s.data)

/-- A Python 2 byte string: every character is a single byte. -/
def allBytes (s : String) : Prop :=
  ∀ c ∈ s.data, c.toNat < 256

instance (s : String) : Decidable (allBytes s) := by
  unfold allBytes; infer_instance

/-! ### Port resolution (`xmpp_message`, lines 100-105) -/

/-- Modelled from the spec: `DEFAULT_SERVICE` is imported from the external
`appscale.admin.constants` package, which is not part of this repository;
the spec fixes the service component of the lookup key to `"default"`. -/
def DEFAULT_SERVICE : String := "default"

/-- Modelled from the spec: `DEFAULT_VERSION` is imported from the external
`appscale.admin.constants` package, which is not part of this repository;
the spec fixes the version component of the lookup key to `"default"`. -/
def DEFAULT_VERSION : String := "default"

/-- Modelled from the spec: `VERSION_PATH_SEPARATOR` is imported from the
external `appscale.common.constants` package; the spec only requires a
fixed separator joining the key components. -/
def VERSION_PATH_SEPARATOR : String := "_"

/-- The composite version key `{appid, service, version}` joined by the
fixed separator. -/
def version_key (appid : String) : String :=
  String.intercalate VERSION_PATH_SEPARATOR [appid, DEFAULT_SERVICE, DEFAULT_VERSION]

/-- Embeds the path built by os.path.join: /etc/appscale/port-<key>.txt. -/
def port_file_location (appid : String) : String :=
  "/etc/appscale/port-" ++ version_key appid ++ ".txt"

/-- The whitespace set of Python's `str.strip()`. -/
def isPySpace (c : Char) : Bool :=
  c = ' ' || c = '\t' || c = '\n' || c = '\x0b' || c = '\x0c' || c = '\r'

/-- Drops leading Python whitespace. -/
def dropLeadingSpace : List Char → List Char
  | [] => []
  | c :: rest => if isPySpace c then dropLeadingSpace rest else c :: rest

/-- Python's `str.strip()`: removes leading and trailing whitespace. -/
def pyStrip (s : String) : String :=
  String.mk (dropLeadingSpace (dropLeadingSpace s.data.reverse).reverse)

/-- Base-10 digit accumulator for `int()`; fails on any non-digit. -/
def pyDigits : List Char → Nat → Option Nat
  | [], acc => some acc
  | c :: rest, acc =>
    if c.isDigit then pyDigits rest (acc * 10 + (c.toNat - 48)) else none

/-- Python's `int(s)` on an already-stripped string: an optional sign
followed by at least one base-10 digit; anything else raises
`ValueError` (modelled as `none`). -/
def pyInt (s : String) : Option Int :=
  match s.data with
  | [] => none
  | c :: rest =>
    if c = '+' then
      match rest with
      | [] => none
      | _ => (pyDigits rest 0).map Int.ofNat
    else if c = '-' then
      match rest with
      | [] => none
      | _ => (pyDigits rest 0).map (fun n => -(n : Int))
    else (pyDigits (c :: rest) 0).map Int.ofNat

/-- Lines 104-105 of `xmpp_message`: open the port file, read it whole,
strip whitespace and parse a base-10 integer.  `open` raises `IOError`
when the file is absent or unreadable; `int` raises `ValueError` on
non-numeric contents. -/
def resolvePort (fs : FS) (appid : String) : Except PyError Int :=
  match fs (port_file_location appid) with
  | none => .error .ioError
  | some contents =>
    match pyInt (pyStrip contents) with
    | none => .error .valueError
    | some n => .ok n

/-! ### Message forwarding (`xmpp_message`) -/

/-- The fixed `HEADERS` class attribute. -/
def HEADERS : List (String × String) :=
  [("Content-Type", "application/x-www-form-urlencoded")]

/-- Result of running one event handler: the effects emitted before the
handler finished or raised, and the exception escaping it, if any. -/
structure HandlerResult where
  effects : List Effect
  raised : Option PyError
  deriving DecidableEq, Repr

/-- The `try` block of `xmpp_message` (lines 107-118): log the connection
attempt, issue the POST, log the response status, close; any exception from
the transport is caught by the `except` clause and logged
(`logging.exception`). -/
def httpDeliver (w : HttpWorld) (post : HttpPost) : List Effect :=
  let attempt := Effect.log
    ("Attempting to open connection to " ++ post.host ++ ":" ++ toString post.port)
  match w.failAt with
  | some .request => [attempt, .logHttpException]
  | some .getresponse => [attempt, .httpRequest post, .logHttpException]
  | some .close =>
    [attempt, .httpRequest post,
      .log ("POST XMPP message returned status of " ++ toString w.status),
      .logHttpException]
  | none =>
    [attempt, .httpRequest post,
      .log ("POST XMPP message returned status of " ++ toString w.status)]

/-- Embeds `XMPPReceiver.xmpp_message`: logs the event, form-encodes
`{from, to: my_jid, body}`, resolves the application port by an unguarded
read of the port file (an error here escapes the handler), then delivers
the POST inside a `try` block that absorbs every transport exception.
The second log line formats the *unbound reference* `event.getType` (the
method object, not its value), so it does not depend on the stanza kind. -/
def xmpp_message (r : XMPPReceiver) (fs : FS) (w : HttpWorld)
    (event : MessageEvent) : HandlerResult :=
  let log1 := Effect.log
    ("received a message from " ++ event.fromStripped ++ ", with body " ++
      pyStr event.body)
  let log2 := Effect.log "message type is <bound method Message.getType>"
  let encoded_params := urlencode
    [("from", event.fromStripped), ("to", r.my_jid), ("body", pyStr event.body)]
  match resolvePort fs r.appid with
  | .error e => { effects := [log1, log2], raised := some e }
  | .ok app_port =>
    let post : HttpPost :=
      { host := r.login_ip
        port := app_port.toNat
        path := "/_ah/xmpp/message/chat/"
        body := encoded_params
        headers := HEADERS }
    { effects := [log1, log2] ++ httpDeliver w post, raised := none }

/-! ### Presence handling (`xmpp_presence`) -/

/-- Embeds `XMPPReceiver.xmpp_presence`: logs the event, and iff the presence type
is `"subscribe"` sends `subscribed` then `subscribe` back to the full JID
of the sender.  It never raises. -/
def xmpp_presence (_r : XMPPReceiver) (event : PresenceEvent) : List Effect :=
  [Effect.log
      ("received a presence from " ++ event.fromStripped ++ ", with payload " ++
        event.payload),
    Effect.log ("presence type is " ++ event.kind)] ++
  (if event.kind = "subscribe" then
    [Effect.sendPresence event.fromJid "subscribed",
      Effect.sendPresence event.fromJid "subscribe"]
  else [])

/-- The outbound presence stanzas of an effect trace, in order. -/
def presenceSends : List Effect → List (String × String)
  | [] => []
  | .sendPresence dest typ :: rest => (dest, typ) :: presenceSends rest
  | _ :: rest => presenceSends rest

/-- The outbound HTTP requests of an effect trace, in order. -/
def httpPosts : List Effect → List HttpPost
  | [] => []
  | .httpRequest p :: rest => p :: httpPosts rest
  | _ :: rest => httpPosts rest

/-! ### The poll loop (`listen_for_messages`, lines 162-174)

One call to `client.Process(timeout=1)` either raises
`xmpp.protocol.Conflict`, raises some other exception propagating out of a
dispatched handler (only `Conflict` is caught by the loop), or returns a
value that is `None` or an integer. -/

/-- Outcome of one `client.Process(timeout=1)` call. -/
inductive PollOutcome
  | conflict
  | value (response : Option Int)
  | raised (e : PyError)
  deriving DecidableEq, Repr

/-- How the `while True` poll loop ends; `outOfFuel` means the supplied
outcome stream was exhausted with the loop still running. -/
inductive LoopExit
  | returned
  | raisedExit (e : PyError)
  | outOfFuel
  deriving DecidableEq, Repr

/-- The poll loop body: a `Conflict` sets `lost_connection`; otherwise a
response of `None` or `0` does; when lost, the loop logs and returns.
Any other exception escapes the loop uncaught. -/
def pollLoop : List PollOutcome → LoopExit
  | [] => .outOfFuel
  | o :: rest =>
    match o with
    | .conflict => .returned
    | .raised e => .raisedExit e
    | .value response =>
      if response = none ∨ response = some 0 then .returned
      else pollLoop rest

/-! ### Session setup and the reconnect loop -/

/-- Oracle for one `listen_for_messages` call: whether `client.connect`
and `client.auth` succeed, and the stream of poll outcomes afterwards. -/
structure SessionWorld where
  connectOk : Bool
  authOk : Bool
  polls : List PollOutcome
  deriving DecidableEq, Repr

/-- How one `listen_for_messages` call ends: a raised `SystemExit` with its
message, a normal return (lost connection), an uncaught handler exception,
or exhaustion of the supplied poll stream. -/
inductive ListenResult
  | systemExit (msg : String)
  | returned
  | raisedExit (e : PyError)
  | outOfFuel
  deriving DecidableEq, Repr

/-- Trace of one `listen_for_messages` call: whether `client.auth` was
reached, whether the handlers were registered (and initial presence sent),
and how the call ended. -/
structure ListenTrace where
  authAttempted : Bool
  handlersRegistered : Bool
  result : ListenResult
  deriving DecidableEq, Repr

/-- Embeds `XMPPReceiver.listen_for_messages`: a failed `connect` raises
`SystemExit` before `auth` is attempted; a failed `auth` raises
`SystemExit` before the handlers are registered; otherwise the handlers
are registered, initial presence is sent, and the poll loop runs. -/
def listen_for_messages (r : XMPPReceiver) (w : SessionWorld) : ListenTrace :=
  if !w.connectOk then
    { authAttempted := false
      handlersRegistered := false
      result := .systemExit ("Could not connect to XMPP server at " ++ r.xmpp_location) }
  else if !w.authOk then
    { authAttempted := true
      handlersRegistered := false
      result := .systemExit ("Could not authenticate to XMPP server at " ++ r.xmpp_location) }
  else
    { authAttempted := true
      handlersRegistered := true
      result :=
        match pollLoop w.polls with
        | .returned => .returned
        | .raisedExit e => .raisedExit e
        | .outOfFuel => .outOfFuel }

/-- How the `__main__` loop ends: `exited` when a `SystemExit` propagates,
`raisedMain` when another exception does, `stillRunning` when the supplied
stream of session worlds is exhausted with the loop still iterating. -/
inductive MainResult
  | exited (msg : String)
  | raisedMain (e : PyError)
  | stillRunning
  deriving DecidableEq, Repr

/-- The `while True` loop of `__main__`: call `listen_for_messages`; a
normal return immediately starts the next session; any exception
propagates out of the loop and terminates the process.  Returns the number
of sessions started alongside the final status. -/
def mainLoop (r : XMPPReceiver) : List SessionWorld → Nat × MainResult
  | [] => (0, .stillRunning)
  | w :: rest =>
    match (listen_for_messages r w).result with
    | .systemExit m => (1, .exited m)
    | .raisedExit e => (1, .raisedMain e)
    | .outOfFuel => (1, .stillRunning)
    | .returned =>
      let next := mainLoop r rest
      (next.1 + 1, next.2)

/-- A whole process lifetime of message handling: each incoming message is
dispatched to `xmpp_message` with the file system and HTTP world current at
that moment, against one fixed receiver object. -/
def processMessages (r : XMPPReceiver) :
    List (FS × HttpWorld × MessageEvent) → List Effect
  | [] => []
  | (fs, w, ev) :: rest =>
    (xmpp_message r fs w ev).effects ++ processMessages r rest

/-! ### Round-trip lemmas for the form encoding -/

theorem hexVal_hexDigit (n : Nat) (h : n < 16) : hexVal (hexDigit n) = some n := by
  interval_cases n <;> decide

theorem hexDigit_notSpecial (n : Nat) (h : n < 16) :
    hexDigit n ≠ '&' ∧ hexDigit n ≠ '=' := by
  interval_cases n <;> decide

theorem safeChar_notSpecial {c : Char} (h : isSafeChar c = true) :
    c ≠ '+' ∧ c ≠ '%' ∧ c ≠ '&' ∧ c ≠ '=' := by
  refine ⟨?_, ?_, ?_, ?_⟩ <;> rintro rfl <;> revert h <;> decide

theorem unquoteChars_cons_safe (c : Char) (h1 : c ≠ '+') (h2 : c ≠ '%')
    (rest : List Char) :
    unquoteChars (c :: rest) = Option.map (fun l => c :: l) (unquoteChars rest) := by
  rcases rest with _ | ⟨x, _ | ⟨y, tail⟩⟩ <;> simp [unquoteChars, h1, h2]

theorem unquoteChars_cons_plus (rest : List Char) :
    unquoteChars ('+' :: rest) =
      Option.map (fun l => ' ' :: l) (unquoteChars rest) := by
  rcases rest with _ | ⟨x, _ | ⟨y, tail⟩⟩ <;> simp [unquoteChars]

theorem unquoteChars_cons_pct (h lo : Char) (tail : List Char) :
    unquoteChars ('%' :: h :: lo :: tail) =
      match hexVal h, hexVal lo with
      | some hv, some lv =>
        Option.map (fun l => Char.ofNat (16 * hv + lv) :: l) (unquoteChars tail)
      | _, _ => none := by
  simp [unquoteChars]

theorem unquoteChars_quoteChar (c : Char) (hc : c.toNat < 256)
    (rest : List Char) :
    unquoteChars (quoteChar c ++ rest) =
      Option.map (fun l => c :: l) (unquoteChars rest) := by
  by_cases hs : isSafeChar c
  · obtain ⟨h1, h2, -, -⟩ := safeChar_notSpecial hs
    rw [show quoteChar c = [c] from by simp [quoteChar, hs], List.cons_append,
      List.nil_append, unquoteChars_cons_safe c h1 h2]
  · by_cases hsp : c = ' '
    · subst hsp
      rw [show quoteChar ' ' = ['+'] from by decide, List.cons_append,
        List.nil_append, unquoteChars_cons_plus]
    · have h16a : c.toNat / 16 < 16 := by omega
      have h16b : c.toNat % 16 < 16 := Nat.mod_lt _ (by omega)
      rw [show quoteChar c = ['%', hexDigit (c.toNat / 16), hexDigit (c.toNat % 16)]
        from by simp [quoteChar, hs, hsp]]
      rw [List.cons_append, List.cons_append, List.cons_append, List.nil_append,
        unquoteChars_cons_pct]
      simp only [hexVal_hexDigit _ h16a, hexVal_hexDigit _ h16b]
      rw [Nat.div_add_mod, Char.ofNat_toNat]

theorem unquoteChars_quoteFlatten (l : List Char) (h : ∀ c ∈ l, c.toNat < 256) :
    unquoteChars ((l.map quoteChar).flatten) = some l := by
  induction l with
  | nil => simp [unquoteChars]
  | cons c cs ih =>
    rw [List.map_cons, List.flatten_cons,
      unquoteChars_quoteChar c (h c (List.mem_cons_self c cs)),
      ih (fun x hx => h x (List.mem_cons_of_mem _ hx))]
    rfl

theorem unquoteChars_quotePlus (s : String) (h : allBytes s) :
    unquoteChars (quotePlus s).data = some s.data :=
  unquoteChars_quoteFlatten s.data h

theorem quoteChar_notAmpEq (c : Char) (hc : c.toNat < 256) :
    ∀ d ∈ quoteChar c, d ≠ '&' ∧ d ≠ '=' := by
  intro d hd
  by_cases hs : isSafeChar c
  · rw [show quoteChar c = [c] from by simp [quoteChar, hs]] at hd
    obtain ⟨-, -, h3, h4⟩ := safeChar_notSpecial hs
    rcases List.mem_singleton.mp hd with rfl
    exact ⟨h3, h4⟩
  · by_cases hsp : c = ' '
    · subst hsp
      rw [show quoteChar ' ' = ['+'] from by decide] at hd
      rcases List.mem_singleton.mp hd with rfl
      exact ⟨by decide, by decide⟩
    · have h16a : c.toNat / 16 < 16 := by omega
      have h16b : c.toNat % 16 < 16 := Nat.mod_lt _ (by omega)
      rw [show quoteChar c = ['%', hexDigit (c.toNat / 16), hexDigit (c.toNat % 16)]
        from by simp [quoteChar, hs, hsp]] at hd
      rcases hd with _ | ⟨_, hd⟩
      · exact ⟨by decide, by decide⟩
      rcases hd with _ | ⟨_, hd⟩
      · exact hexDigit_notSpecial _ h16a
      rcases hd with _ | ⟨_, hd⟩
      · exact hexDigit_notSpecial _ h16b
      · cases hd

theorem mem_quotePlus_notAmpEq (s : String) (h : allBytes s) :
    ∀ d ∈ (quotePlus s).data, d ≠ '&' ∧ d ≠ '=' := by
  intro d hd
  rw [show (quotePlus s).data = (s.data.map quoteChar).flatten from rfl] at hd
  obtain ⟨lc, hlc, hdlc⟩ := List.mem_flatten.mp hd
  obtain ⟨c, hcs, rfl⟩ := List.mem_map.mp hlc
  exact quoteChar_notAmpEq c (h c hcs) d hdlc

theorem splitEq1_append (k v : List Char) (hk : '=' ∉ k) :
    splitEq1 (k ++ '=' :: v) = some (k, v) := by
  induction k with
  | nil => simp [splitEq1]
  | cons c cs ih =>
    have hc : ¬(c = '=') := fun hcc => hk (hcc ▸ List.mem_cons_self c cs)
    simp [splitEq1, hc, ih (fun hh => hk (List.mem_cons_of_mem _ hh))]

theorem splitAmp_noAmp (a : List Char) (ha : '&' ∉ a) : splitAmp a = [a] := by
  induction a with
  | nil => rfl
  | cons c cs ih =>
    have hc : ¬(c = '&') := fun hcc => ha (hcc ▸ List.mem_cons_self c cs)
    simp [splitAmp, hc, ih (fun hh => ha (List.mem_cons_of_mem _ hh))]

theorem splitAmp_append (a b : List Char) (ha : '&' ∉ a) :
    splitAmp (a ++ '&' :: b) = a :: splitAmp b := by
  induction a with
  | nil => simp [splitAmp]
  | cons c cs ih =>
    have hc : ¬(c = '&') := fun hcc => ha (hcc ▸ List.mem_cons_self c cs)
    simp [splitAmp, hc, ih (fun hh => ha (List.mem_cons_of_mem _ hh))]

theorem string_mk_data (s : String) : String.mk s.data = s := rfl

theorem decodePair_urlencodePair (k v : String)
    (h1 : allBytes k) (h2 : allBytes v) :
    decodePair (urlencodePair (k, v)).data = some (k, v) := by
  have hdata : (urlencodePair (k, v)).data
      = (quotePlus k).data ++ '=' :: (quotePlus v).data := by
    simp [urlencodePair]
  have hk : '=' ∉ (quotePlus k).data :=
    fun hmem => (mem_quotePlus_notAmpEq k h1 '=' hmem).2 rfl
  rw [decodePair, hdata, splitEq1_append _ _ hk]
  simp [unquoteChars_quotePlus k h1, unquoteChars_quotePlus v h2, string_mk_data]

theorem amp_notMem_urlencodePair (k v : String)
    (h1 : allBytes k) (h2 : allBytes v) :
    '&' ∉ (urlencodePair (k, v)).data := by
  intro hmem
  have hdata : (urlencodePair (k, v)).data
      = (quotePlus k).data ++ '=' :: (quotePlus v).data := by
    simp [urlencodePair]
  rw [hdata] at hmem
  rcases List.mem_append.mp hmem with hm | hm
  · exact (mem_quotePlus_notAmpEq k h1 '&' hm).1 rfl
  · rcases hm with _ | ⟨_, hm⟩
    · cases (mem_quotePlus_notAmpEq v h2 '&' hm).1 rfl

/-- The encode/decode round trip on a nonempty params list of byte
strings: `urllib.urlencode` output decodes back to exactly the pairs it
was given. -/
theorem decodeForm_urlencode (params : List (String × String))
    (hne : params ≠ [])
    (h : ∀ p ∈ params, allBytes p.1 ∧ allBytes p.2) :
    decodeForm (urlencode params) = some params := by
  induction params with
  | nil => cases hne rfl
  | cons p rest ih =>
    obtain ⟨k, v⟩ := p
    obtain ⟨h1, h2⟩ := h (k, v) (List.mem_cons_self _ _)
    cases rest with
    | nil =>
      rw [show urlencode [(k, v)] = urlencodePair (k, v) from rfl, decodeForm,
        splitAmp_noAmp _ (amp_notMem_urlencodePair k v h1 h2)]
      simp [decodePairs, decodePair_urlencodePair k v h1 h2]
    | cons q rest2 =>
      have hrest := ih (by simp) (fun x hx => h x (List.mem_cons_of_mem _ hx))
      rw [show urlencode ((k, v) :: q :: rest2)
          = urlencodePair (k, v) ++ "&" ++ urlencode (q :: rest2) from rfl]
      rw [decodeForm]
      rw [show (urlencodePair (k, v) ++ "&" ++ urlencode (q :: rest2)).data
          = (urlencodePair (k, v)).data ++ '&' :: (urlencode (q :: rest2)).data
        from by simp]
      rw [splitAmp_append _ _ (amp_notMem_urlencodePair k v h1 h2)]
      rw [decodeForm] at hrest
      simp [decodePairs, decodePair_urlencodePair k v h1 h2, hrest]

/-! ### Helper lemmas -/

theorem allBytes_append {a b : String} (ha : allBytes a) (hb : allBytes b) :
    allBytes (a ++ b) := by
  intro c hc
  rw [String.data_append] at hc
  rcases List.mem_append.mp hc with h | h
  · exact ha c h
  · exact hb c h

theorem httpPosts_append (a b : List Effect) :
    httpPosts (a ++ b) = httpPosts a ++ httpPosts b := by
  induction a with
  | nil => rfl
  | cons e rest ih => cases e <;> simp [httpPosts, ih]

/-! ### Claim theorems -/

/-- C2: for every presence event of kind "subscribe" from peer P, exactly
two outbound presence stanzas are sent over the owning session, in strict
order: first type "subscribed" to P, then type "subscribe" to P; for any
other kind no outbound stanza is produced. -/
theorem C2_subscribe_two_stanzas (r : XMPPReceiver) (ev : PresenceEvent) :
    presenceSends (xmpp_presence r ev) =
      if ev.kind = "subscribe" then
        [(ev.fromJid, "subscribed"), (ev.fromJid, "subscribe")]
      else [] := by
  by_cases hk : ev.kind = "subscribe" <;>
    simp [xmpp_presence, presenceSends, hk]

/-- C5: a failed `authenticate` raises a fatal descriptive `SystemExit`
before handlers are registered, and the supervisor loop terminates after
that single session, never retrying authentication; likewise a failed
`connect` is fatal before authentication is even attempted. -/
theorem C5_startup_failures_fatal (r : XMPPReceiver) (w : SessionWorld)
    (rest : List SessionWorld) :
    (w.connectOk = true → w.authOk = false →
      (listen_for_messages r w).result
          = .systemExit ("Could not authenticate to XMPP server at " ++ r.xmpp_location)
        ∧ (listen_for_messages r w).handlersRegistered = false
        ∧ mainLoop r (w :: rest)
          = (1, .exited ("Could not authenticate to XMPP server at " ++ r.xmpp_location)))
    ∧ (w.connectOk = false →
      (listen_for_messages r w).authAttempted = false
        ∧ mainLoop r (w :: rest)
          = (1, .exited ("Could not connect to XMPP server at " ++ r.xmpp_location))) := by
  constructor
  · intro hc ha
    simp [listen_for_messages, mainLoop, hc, ha]
  · intro hc
    simp [listen_for_messages, mainLoop, hc]

theorem C5_startup_failures_fatal_witness :
    (listen_for_messages (XMPPReceiver.init "app" "192.168.1.1" "10.0.0.5" "pw")
        ⟨true, false, []⟩).result
      = .systemExit "Could not authenticate to XMPP server at 10.0.0.5"
    ∧ mainLoop (XMPPReceiver.init "app" "192.168.1.1" "10.0.0.5" "pw")
        [⟨true, false, []⟩, ⟨true, true, [.conflict]⟩]
      = (1, .exited "Could not authenticate to XMPP server at 10.0.0.5") := by
  have h := (C5_startup_failures_fatal
    (XMPPReceiver.init "app" "192.168.1.1" "10.0.0.5" "pw")
    ⟨true, false, []⟩ [⟨true, true, [.conflict]⟩]).1 rfl rfl
  exact ⟨h.1, h.2.2⟩

/-- C6: the poll loop produces the lost-connection signal in exactly two
cases — a transport `Conflict` and a read returning `None` or `0` — and on
a lost connection the session loop terminates by returning normally.  Any
other exception during polling escapes instead of being folded into the
lost signal. -/
theorem C6_lost_connection_cases (response : Option Int)
    (rest : List PollOutcome) (e : PyError) :
    pollLoop (.conflict :: rest) = .returned
    ∧ pollLoop (.value response :: rest)
        = (if response = none ∨ response = some 0 then .returned else pollLoop rest)
    ∧ pollLoop (.raised e :: rest) = .raisedExit e
    ∧ (∀ (r : XMPPReceiver) (w : SessionWorld),
        w.connectOk = true → w.authOk = true → pollLoop w.polls = .returned →
        (listen_for_messages r w).result = .returned) := by
  refine ⟨rfl, rfl, rfl, ?_⟩
  intro r w hc ha hp
  simp [listen_for_messages, hc, ha, hp]

theorem C6_lost_connection_cases_witness :
    pollLoop [.conflict] = .returned
    ∧ pollLoop [.value (some 0)] = .returned
    ∧ (listen_for_messages (XMPPReceiver.init "app" "h" "x" "pw")
        ⟨true, true, [.value none]⟩).result = .returned := by
  have h := C6_lost_connection_cases (some 0) [] PyError.ioError
  refine ⟨h.1, ?_, ?_⟩
  · rw [h.2.1]; rfl
  · exact h.2.2.2 (XMPPReceiver.init "app" "h" "x" "pw")
      ⟨true, true, [.value none]⟩ rfl rfl rfl

/-- A session whose handlers raised an uncaught exception during polling
necessarily got past `connect` and `auth`, and its poll loop raised that
very exception; no other path of `listen_for_messages` produces a raised
result. -/
theorem listen_result_raisedExit (r : XMPPReceiver) (w : SessionWorld)
    (e : PyError) (h : (listen_for_messages r w).result = .raisedExit e) :
    w.connectOk = true ∧ w.authOk = true ∧ pollLoop w.polls = .raisedExit e := by
  obtain ⟨c, a, polls⟩ := w
  cases c with
  | false => exact ListenResult.noConfusion h
  | true =>
    cases a with
    | false => exact ListenResult.noConfusion h
    | true =>
      refine ⟨rfl, rfl, ?_⟩
      have h2 : (match pollLoop polls with
          | LoopExit.returned => ListenResult.returned
          | LoopExit.raisedExit ex => ListenResult.raisedExit ex
          | LoopExit.outOfFuel => ListenResult.outOfFuel)
          = ListenResult.raisedExit e := h
      cases hp : pollLoop polls <;> rw [hp] at h2
      · exact ListenResult.noConfusion h2
      · injection h2 with h3
        rw [h3]
      · exact ListenResult.noConfusion h2

/-- C7, counterexample: a session that connects and authenticates
successfully but whose message handler raises an uncaught exception
(the port-file `IOError` of C1) also escapes the `__main__` loop and
terminates the process — so fatal startup errors are NOT the only way the
reconnect loop is escaped, refuting the claim's "only" clause. -/
theorem C7_counterexample :
    mainLoop (XMPPReceiver.init "app" "h" "x" "pw")
        [⟨true, true, [PollOutcome.raised PyError.ioError]⟩]
      = (1, MainResult.raisedMain PyError.ioError)
    ∧ (listen_for_messages (XMPPReceiver.init "app" "h" "x" "pw")
        ⟨true, true, [PollOutcome.raised PyError.ioError]⟩).result
      = ListenResult.raisedExit PyError.ioError :=
  ⟨rfl, rfl⟩

/-- C7, amended: the reconnect supervisor is unbounded, with no retry
limit: after every lost-terminated session it immediately starts another
session, and a stream of lost sessions keeps it running forever (one
session per loss).  The loop is escaped, terminating the process, in
exactly two ways: a fatal startup `SystemExit` (connect/authenticate
failure) from some session, or an uncaught exception propagating out of
an event handler during the polling of some session that had connected
and authenticated successfully. -/
theorem C7_reconnect_loop_escapes (r : XMPPReceiver) :
    (∀ (w : SessionWorld) (rest : List SessionWorld),
      w.connectOk = true → w.authOk = true → pollLoop w.polls = .returned →
      mainLoop r (w :: rest) = ((mainLoop r rest).1 + 1, (mainLoop r rest).2))
    ∧ (∀ worlds : List SessionWorld,
        (∀ w ∈ worlds, w.connectOk = true ∧ w.authOk = true ∧ pollLoop w.polls = .returned) →
        mainLoop r worlds = (worlds.length, .stillRunning))
    ∧ (∀ (worlds : List SessionWorld) (m : String),
        (mainLoop r worlds).2 = .exited m →
        ∃ w ∈ worlds, (listen_for_messages r w).result = .systemExit m)
    ∧ (∀ (worlds : List SessionWorld) (e : PyError),
        (mainLoop r worlds).2 = .raisedMain e →
        ∃ w ∈ worlds, w.connectOk = true ∧ w.authOk = true
          ∧ pollLoop w.polls = .raisedExit e) := by
  have hstep : ∀ (w : SessionWorld) (rest : List SessionWorld),
      w.connectOk = true → w.authOk = true → pollLoop w.polls = .returned →
      mainLoop r (w :: rest) = ((mainLoop r rest).1 + 1, (mainLoop r rest).2) := by
    intro w rest hc ha hp
    simp [mainLoop, listen_for_messages, hc, ha, hp]
  refine ⟨hstep, ?_, ?_, ?_⟩
  · intro worlds hall
    induction worlds with
    | nil => rfl
    | cons w rest ih =>
      obtain ⟨hc, ha, hp⟩ := hall w (List.mem_cons_self w rest)
      rw [hstep w rest hc ha hp, ih (fun x hx => hall x (List.mem_cons_of_mem _ hx))]
      rfl
  · intro worlds m
    induction worlds with
    | nil => intro h; cases h
    | cons w rest ih =>
      intro h
      rw [mainLoop] at h
      rcases hres : (listen_for_messages r w).result with msg | _ | e | _ <;>
        rw [hres] at h
      · cases h
        exact ⟨w, List.mem_cons_self w rest, by rw [hres]⟩
      · obtain ⟨x, hx, hxr⟩ := ih h
        exact ⟨x, List.mem_cons_of_mem _ hx, hxr⟩
      · cases h
      · cases h
  · intro worlds e
    induction worlds with
    | nil => intro h; cases h
    | cons w rest ih =>
      intro h
      rw [mainLoop] at h
      rcases hres : (listen_for_messages r w).result with msg | _ | e2 | _ <;>
        rw [hres] at h
      · cases h
      · obtain ⟨x, hx, hxr⟩ := ih h
        exact ⟨x, List.mem_cons_of_mem _ hx, hxr⟩
      · cases h
        exact ⟨w, List.mem_cons_self w rest, listen_result_raisedExit r w _ hres⟩
      · cases h

theorem C7_reconnect_loop_escapes_witness :
    mainLoop (XMPPReceiver.init "app" "h" "x" "pw")
      [⟨true, true, [.conflict]⟩, ⟨true, true, [.value none]⟩,
        ⟨true, true, [.value (some 0)]⟩]
      = (3, .stillRunning) := by
  refine (C7_reconnect_loop_escapes (XMPPReceiver.init "app" "h" "x" "pw")).2.1 _ ?_
  intro w hw
  rcases hw with _ | ⟨_, hw⟩
  · exact ⟨rfl, rfl, rfl⟩
  rcases hw with _ | ⟨_, hw⟩
  · exact ⟨rfl, rfl, rfl⟩
  rcases hw with _ | ⟨_, hw⟩
  · exact ⟨rfl, rfl, rfl⟩
  · cases hw

/-- C1, counterexample: with an absent port file, the message handler does
NOT catch the port-resolution failure — the `IOError` escapes the handler,
contradicting the claim that no error propagates to the session poll
loop.  (The `open`/`int` sequence sits before the `try` block.) -/
theorem C1_counterexample :
    (xmpp_message (XMPPReceiver.init "guestbook" "192.168.1.1" "10.0.0.5" "pw")
      (fun _ => none) ⟨none, 200⟩
      ⟨"alice@example.com", some "hello", "chat"⟩).raised
      = some PyError.ioError := by
  rfl

/-- C1, amended: if port resolution fails, the handler emits no HTTP call
and drops the message, but the failure is not caught inside the handler:
the exception propagates out of it, and the session poll loop (which
catches only `Conflict`) lets it escape as well. -/
theorem C1_resolution_failure_uncaught (r : XMPPReceiver) (fs : FS)
    (w : HttpWorld) (ev : MessageEvent) (e : PyError)
    (h : resolvePort fs r.appid = .error e) :
    httpPosts (xmpp_message r fs w ev).effects = []
    ∧ (xmpp_message r fs w ev).raised = some e
    ∧ ∀ rest : List PollOutcome, pollLoop (.raised e :: rest) = .raisedExit e := by
  refine ⟨?_, ?_, fun rest => rfl⟩ <;> simp [xmpp_message, h, httpPosts]

theorem C1_resolution_failure_uncaught_witness :
    httpPosts (xmpp_message (XMPPReceiver.init "guestbook" "192.168.1.1" "10.0.0.5" "pw")
        (fun _ => some "not-a-number") ⟨none, 200⟩
        ⟨"alice@example.com", some "hello", "chat"⟩).effects = []
    ∧ (xmpp_message (XMPPReceiver.init "guestbook" "192.168.1.1" "10.0.0.5" "pw")
        (fun _ => some "not-a-number") ⟨none, 200⟩
        ⟨"alice@example.com", some "hello", "chat"⟩).raised
      = some PyError.valueError :=
  ⟨(C1_resolution_failure_uncaught
      (XMPPReceiver.init "guestbook" "192.168.1.1" "10.0.0.5" "pw")
      (fun _ => some "not-a-number") ⟨none, 200⟩
      ⟨"alice@example.com", some "hello", "chat"⟩ PyError.valueError rfl).1,
    (C1_resolution_failure_uncaught
      (XMPPReceiver.init "guestbook" "192.168.1.1" "10.0.0.5" "pw")
      (fun _ => some "not-a-number") ⟨none, 200⟩
      ⟨"alice@example.com", some "hello", "chat"⟩ PyError.valueError rfl).2.1⟩

/-- C3: for an incoming message from "a" with body "c", when the port
mapping resolves to 8080 against loginHost `lip`, the forwarder issues
exactly one HTTP POST to `lip:8080` at `/_ah/xmpp/message/chat/` with the
form-urlencoded content type, and the form-encoded body decodes back to
exactly {from: "a", to: the bridge's own full identity, body: "c"}. -/
theorem C3_forward_post_roundtrip (appid lip xl pw kind : String) (fs : FS)
    (w : HttpWorld)
    (hb : allBytes appid) (hlip : allBytes lip)
    (hp : resolvePort fs appid = .ok 8080)
    (hw : w.failAt = none) :
    (xmpp_message (XMPPReceiver.init appid lip xl pw) fs w
        ⟨"a", some "c", kind⟩).raised = none
    ∧ httpPosts (xmpp_message (XMPPReceiver.init appid lip xl pw) fs w
        ⟨"a", some "c", kind⟩).effects
      = [{ host := lip
           port := 8080
           path := "/_ah/xmpp/message/chat/"
           body := urlencode
             [("from", "a"), ("to", appid ++ "@" ++ lip), ("body", "c")]
           headers := HEADERS }]
    ∧ decodeForm (urlencode
        [("from", "a"), ("to", appid ++ "@" ++ lip), ("body", "c")])
      = some [("from", "a"), ("to", appid ++ "@" ++ lip), ("body", "c")] := by
  refine ⟨?_, ?_, ?_⟩
  · simp [xmpp_message, XMPPReceiver.init, hp]
  · simp [xmpp_message, XMPPReceiver.init, hp, httpDeliver, hw, httpPosts, pyStr]
  · refine decodeForm_urlencode _ (by simp) ?_
    intro p hp2
    rcases List.mem_cons.mp hp2 with rfl | hp2
    · exact ⟨by decide, by decide⟩
    rcases List.mem_cons.mp hp2 with rfl | hp2
    · exact ⟨show allBytes "to" by decide,
        allBytes_append (allBytes_append hb (by decide)) hlip⟩
    rcases List.mem_cons.mp hp2 with rfl | hp2
    · exact ⟨by decide, by decide⟩
    · cases hp2

theorem C3_forward_post_roundtrip_witness :
    httpPosts (xmpp_message (XMPPReceiver.init "guestbook" "192.168.1.1" "10.0.0.5" "pw")
        (fun p => if p = "/etc/appscale/port-guestbook_default_default.txt"
          then some " 8080\n" else none)
        ⟨none, 200⟩ ⟨"a", some "c", "chat"⟩).effects
      = [{ host := "192.168.1.1"
           port := 8080
           path := "/_ah/xmpp/message/chat/"
           body := urlencode
             [("from", "a"), ("to", "guestbook" ++ "@" ++ "192.168.1.1"), ("body", "c")]
           headers := HEADERS }] :=
  (C3_forward_post_roundtrip "guestbook" "192.168.1.1" "10.0.0.5" "pw" "chat"
    (fun p => if p = "/etc/appscale/port-guestbook_default_default.txt"
      then some " 8080\n" else none)
    ⟨none, 200⟩ (by decide) (by decide) rfl rfl).2.1

/-- C4: port resolution is deterministic and uncached: the lookup key is
{applicationId, "default", "default"} joined by the fixed separator, the
derived file path is a function of the applicationId alone, the result
depends only on the file contents at that path, and resolving against an
updated file reflects the new contents immediately. -/
theorem C4_resolution_deterministic_uncached :
    (∀ appid, version_key appid
        = appid ++ VERSION_PATH_SEPARATOR ++ DEFAULT_SERVICE
            ++ VERSION_PATH_SEPARATOR ++ DEFAULT_VERSION)
    ∧ (∀ appid, port_file_location appid
        = "/etc/appscale/port-" ++ version_key appid ++ ".txt")
    ∧ (∀ (fs1 fs2 : FS) (appid : String),
        fs1 (port_file_location appid) = fs2 (port_file_location appid) →
        resolvePort fs1 appid = resolvePort fs2 appid)
    ∧ (∀ (fs : FS) (appid contents : String),
        resolvePort
          (fun p => if p = port_file_location appid then some contents else fs p)
          appid
        = match pyInt (pyStrip contents) with
          | none => .error .valueError
          | some n => .ok n) := by
  refine ⟨fun appid => rfl, fun appid => rfl, ?_, ?_⟩
  · intro fs1 fs2 appid h
    rw [resolvePort, resolvePort, h]
  · intro fs appid contents
    rw [resolvePort, if_pos rfl]

theorem C4_resolution_deterministic_uncached_witness :
    resolvePort (fun _ => some "8080") "guestbook"
      = resolvePort
          (fun p => if p = "/etc/appscale/port-guestbook_default_default.txt"
            then some "8080" else none)
          "guestbook"
    ∧ resolvePort
        (fun p => if p = port_file_location "guestbook" then some "9999"
          else (fun _ => some "8080") p)
        "guestbook"
      = .ok 9999 := by
  constructor
  · exact C4_resolution_deterministic_uncached.2.2.1 _ _ "guestbook" rfl
  · rw [C4_resolution_deterministic_uncached.2.2.2 (fun _ => some "8080")
      "guestbook" "9999"]
    rfl

/-- C8: once port resolution has succeeded, any transport failure during
the HTTP delivery sequence is caught (no exception leaves the handler) and
logged, and the message is delivered at most once — no request at all when
the POST itself fails, and never more than one request. -/
theorem C8_http_failures_caught (r : XMPPReceiver) (fs : FS) (w : HttpWorld)
    (ev : MessageEvent) (port : Int)
    (hp : resolvePort fs r.appid = .ok port) :
    (xmpp_message r fs w ev).raised = none
    ∧ (w.failAt ≠ none →
        Effect.logHttpException ∈ (xmpp_message r fs w ev).effects)
    ∧ (httpPosts (xmpp_message r fs w ev).effects).length ≤ 1
    ∧ (w.failAt = some .request →
        httpPosts (xmpp_message r fs w ev).effects = []) := by
  obtain ⟨failAt, status⟩ := w
  rcases failAt with _ | (_ | _ | _) <;>
    simp [xmpp_message, hp, httpDeliver, httpPosts]

theorem C8_http_failures_caught_witness :
    (xmpp_message (XMPPReceiver.init "guestbook" "192.168.1.1" "10.0.0.5" "pw")
        (fun _ => some "8080") ⟨some .request, 200⟩
        ⟨"alice@example.com", some "hello", "chat"⟩).raised = none
    ∧ httpPosts (xmpp_message (XMPPReceiver.init "guestbook" "192.168.1.1" "10.0.0.5" "pw")
        (fun _ => some "8080") ⟨some .request, 200⟩
        ⟨"alice@example.com", some "hello", "chat"⟩).effects = [] := by
  have h := C8_http_failures_caught
    (XMPPReceiver.init "guestbook" "192.168.1.1" "10.0.0.5" "pw")
    (fun _ => some "8080") ⟨some .request, 200⟩
    ⟨"alice@example.com", some "hello", "chat"⟩ 8080 rfl
  exact ⟨h.1, h.2.2.2 rfl⟩

/-- C9 (implicit): the message handler never inspects the stanza kind —
its entire behaviour is invariant under changing the kind — and a message
with a missing (`None`) body still resolves the port and is POSTed, with
the body field encoded as the string "None". -/
theorem C9_forwards_unconditionally (r : XMPPReceiver) (fs : FS)
    (w : HttpWorld) (frm : String) (body : Option String) (k1 k2 : String) :
    xmpp_message r fs w ⟨frm, body, k1⟩ = xmpp_message r fs w ⟨frm, body, k2⟩
    ∧ (∀ port : Int, resolvePort fs r.appid = .ok port → w.failAt = none →
        httpPosts (xmpp_message r fs w ⟨frm, none, k1⟩).effects
          = [{ host := r.login_ip
               port := port.toNat
               path := "/_ah/xmpp/message/chat/"
               body := urlencode
                 [("from", frm), ("to", r.my_jid), ("body", "None")]
               headers := HEADERS }]) := by
  constructor
  · rfl
  · intro port hp hw
    simp [xmpp_message, hp, httpDeliver, hw, httpPosts, pyStr]

theorem C9_forwards_unconditionally_witness :
    httpPosts (xmpp_message (XMPPReceiver.init "guestbook" "192.168.1.1" "10.0.0.5" "pw")
        (fun _ => some "8080") ⟨none, 200⟩
        ⟨"alice@example.com", none, "groupchat"⟩).effects
      = [{ host := "192.168.1.1"
           port := 8080
           path := "/_ah/xmpp/message/chat/"
           body := urlencode
             [("from", "alice@example.com"),
               ("to", (XMPPReceiver.init "guestbook" "192.168.1.1" "10.0.0.5" "pw").my_jid),
               ("body", "None")]
           headers := HEADERS }] :=
  (C9_forwards_unconditionally
    (XMPPReceiver.init "guestbook" "192.168.1.1" "10.0.0.5" "pw")
    (fun _ => some "8080") ⟨none, 200⟩ "alice@example.com" none
    "groupchat" "chat").2 8080 rfl rfl

/-- Every HTTP request a single `xmpp_message` call can emit is the
canonical POST built from the receiver's own fields; there is never more
than one and never a different one. -/
theorem httpPosts_xmpp_message (r : XMPPReceiver) (fs : FS) (w : HttpWorld)
    (ev : MessageEvent) :
    httpPosts (xmpp_message r fs w ev).effects = []
    ∨ ∃ port : Int,
        httpPosts (xmpp_message r fs w ev).effects
          = [{ host := r.login_ip
               port := port.toNat
               path := "/_ah/xmpp/message/chat/"
               body := urlencode
                 [("from", ev.fromStripped), ("to", r.my_jid),
                   ("body", pyStr ev.body)]
               headers := HEADERS }] := by
  cases hres : resolvePort fs r.appid with
  | error e =>
    left
    simp [xmpp_message, hres, httpPosts]
  | ok port =>
    obtain ⟨failAt, status⟩ := w
    rcases failAt with _ | (_ | _ | _)
    · exact Or.inr ⟨port, by simp [xmpp_message, hres, httpDeliver, httpPosts]⟩
    · exact Or.inl (by simp [xmpp_message, hres, httpDeliver, httpPosts])
    · exact Or.inr ⟨port, by simp [xmpp_message, hres, httpDeliver, httpPosts]⟩
    · exact Or.inr ⟨port, by simp [xmpp_message, hres, httpDeliver, httpPosts]⟩

theorem to_field_processMessages (r : XMPPReceiver) (hjid : allBytes r.my_jid)
    (msgs : List (FS × HttpWorld × MessageEvent))
    (hmsgs : ∀ m ∈ msgs, allBytes m.2.2.fromStripped ∧ allBytes (pyStr m.2.2.body)) :
    ∀ p ∈ httpPosts (processMessages r msgs),
      (decodeForm p.body).bind (fun l => l.lookup "to") = some r.my_jid := by
  induction msgs with
  | nil => intro p hp; cases hp
  | cons m rest ih =>
    intro p hp
    obtain ⟨fs, w, ev⟩ := m
    rw [processMessages, httpPosts_append] at hp
    rcases List.mem_append.mp hp with hmem | hmem
    · obtain ⟨hf, hbody⟩ := hmsgs (fs, w, ev) (List.mem_cons_self _ _)
      rcases httpPosts_xmpp_message r fs w ev with hnone | ⟨port, hpost⟩
      · rw [hnone] at hmem; cases hmem
      · rw [hpost] at hmem
        rcases List.mem_singleton.mp hmem with rfl
        have hd := decodeForm_urlencode
          [("from", ev.fromStripped), ("to", r.my_jid), ("body", pyStr ev.body)]
          (by simp) ?_
        · show (decodeForm (urlencode
            [("from", ev.fromStripped), ("to", r.my_jid), ("body", pyStr ev.body)])).bind
              (fun l => l.lookup "to") = some r.my_jid
          rw [hd]
          rfl
        · intro q hq
          rcases List.mem_cons.mp hq with rfl | hq
          · exact ⟨show allBytes "from" by decide, hf⟩
          rcases List.mem_cons.mp hq with rfl | hq
          · exact ⟨show allBytes "to" by decide, hjid⟩
          rcases List.mem_cons.mp hq with rfl | hq
          · exact ⟨show allBytes "body" by decide, hbody⟩
          · cases hq
    · exact ih (fun x hx => hmsgs x (List.mem_cons_of_mem _ hx)) p hmem

/-- C10 (implicit): the identity fields fixed at construction are what
`__init__` stored (no operation mutates the receiver, which the embedding
renders by threading one immutable receiver through every handler call),
and across an entire process lifetime of message handling the `to` field
of every forwarded message decodes to `applicationId@loginHost`. -/
theorem C10_identity_immutable (appid lip xl pw : String)
    (hb : allBytes appid) (hlip : allBytes lip)
    (msgs : List (FS × HttpWorld × MessageEvent))
    (hmsgs : ∀ m ∈ msgs, allBytes m.2.2.fromStripped ∧ allBytes (pyStr m.2.2.body)) :
    (XMPPReceiver.init appid lip xl pw).appid = appid
    ∧ (XMPPReceiver.init appid lip xl pw).login_ip = lip
    ∧ (XMPPReceiver.init appid lip xl pw).app_password = pw
    ∧ (XMPPReceiver.init appid lip xl pw).my_jid = appid ++ "@" ++ lip
    ∧ ∀ p ∈ httpPosts (processMessages (XMPPReceiver.init appid lip xl pw) msgs),
        (decodeForm p.body).bind (fun l => l.lookup "to")
          = some (appid ++ "@" ++ lip) := by
  refine ⟨rfl, rfl, rfl, rfl, ?_⟩
  exact to_field_processMessages (XMPPReceiver.init appid lip xl pw)
    (allBytes_append (allBytes_append hb (by decide)) hlip) msgs hmsgs

theorem C10_identity_immutable_witness :
    (decodeForm (urlencode
        [("from", "a"), ("to", "guestbook" ++ "@" ++ "h"), ("body", "c")])).bind
        (fun l => l.lookup "to")
      = some ("guestbook" ++ "@" ++ "h") := by
  refine (C10_identity_immutable "guestbook" "h" "x" "pw" (by decide) (by decide)
      [(fun _ => some "8080", ⟨none, 200⟩, ⟨"a", some "c", "chat"⟩)] ?_).2.2.2.2
      { host := "h"
        port := 8080
        path := "/_ah/xmpp/message/chat/"
        body := urlencode
          [("from", "a"), ("to", "guestbook" ++ "@" ++ "h"), ("body", "c")]
        headers := HEADERS } ?_
  · intro m hm
    rcases List.mem_singleton.mp hm with rfl
    exact ⟨by decide, by decide⟩
  · exact List.mem_singleton.mpr rfl

end XMPPReceiverSpec
